import Mathlib

/-!
Shallow embedding of the rendy GPU device-memory allocator core
(`src/memory/src/heaps.rs`) together with spec-modelled versions of the
collaborating modules (`allocator`, `usage`, `error`) that are referenced by
`heaps.rs` but whose sources are not part of this repository slice.

Machine integers (`u64` sizes, `u32` masks and indices) are modelled as `Nat`:
the allocator performs no wrapping arithmetic on the paths modelled here, and
Rust debug builds abort on overflow/underflow, which we model as `Option.none`
("panic") where a claim depends on it.  Rust panics (slice indexing out of
bounds, `Option::unwrap` on `None`, `u64` underflow in debug) are modelled by
an `Option` layer: `none` means the call panics.
-/

deriving instance DecidableEq for Except

namespace Rendy

/-- Modelled from the spec (§3): the Vulkan memory-property bits read by the
allocator, as a `Nat` bitmask with the standard `vk::MemoryPropertyFlags`
encoding. -/
def DEVICE_LOCAL : Nat := 1

/-- Modelled from the spec (§3): host-visible property bit. -/
def HOST_VISIBLE : Nat := 2

/-- Modelled from the spec (§3): host-coherent property bit. -/
def HOST_COHERENT : Nat := 4

/-- Modelled from the spec (§3): host-cached property bit. -/
def HOST_CACHED : Nat := 8

/-- Modelled from the spec (§3): lazily-allocated property bit. -/
def LAZILY_ALLOCATED : Nat := 16

/-- Embedding of ash's `vk::MemoryPropertyFlags::subset`:
`self.subset(other)` holds when every bit of `other` is set in `self`
(`self & other == other`). -/
def flagsSubset (self other : Nat) : Bool := self &&& other == other

/-- Modelled from the spec (§3, §4.7): `MemoryUsageValue`, the closed set of
allocation intents from the missing `usage` module.  The `MemoryUsage` trait
object is identified with its `value()`. -/
inductive MemoryUsageValue
  | data
  | dynamic
  | upload
  | download
deriving DecidableEq, Repr

/-- Modelled from the spec (§4.7): the device-layer errors surfaced by the
missing `error` module and propagated by sub-allocators. -/
inductive DeviceError
  | OutOfDeviceMemory
  | OutOfHostMemory
  | TooManyObjects
  | MappingFailed
deriving DecidableEq, Repr

/-- Modelled from the spec (§4.7): the closed error taxonomy of the missing
`error` module (`MemoryError`, flattening `AllocationError` and
`OutOfMemoryError` into one sum as the Rust `From` impls do). -/
inductive MemoryError
  | OutOfDeviceMemory
  | OutOfHostMemory
  | TooManyObjects
  | MappingFailed
  | HeapsExhausted
  | NoSuitableMemory (mask : Nat) (usage : MemoryUsageValue)
deriving DecidableEq, Repr

/-- Injection of device-layer errors into the allocator error taxonomy. -/
def DeviceError.toMemoryError : DeviceError → MemoryError
  | .OutOfDeviceMemory => .OutOfDeviceMemory
  | .OutOfHostMemory => .OutOfHostMemory
  | .TooManyObjects => .TooManyObjects
  | .MappingFailed => .MappingFailed

/-- Predicate singling out the errors that originate in the device layer
(as opposed to the two selection errors produced by `Heaps` itself). -/
def MemoryError.isDeviceError : MemoryError → Prop
  | .OutOfDeviceMemory => True
  | .OutOfHostMemory => True
  | .TooManyObjects => True
  | .MappingFailed => True
  | .HeapsExhausted => False
  | .NoSuitableMemory _ _ => False

instance (e : MemoryError) : Decidable e.isDeviceError := by
  cases e <;> simp [MemoryError.isDeviceError] <;> infer_instance

/-- Modelled from the spec (§6): the thin device capability consumed by the
allocator.  Only raw-allocation outcomes are observable on the paths the
claims are about: `rawAlloc s` tells whether a driver allocation of `s` bytes
succeeds or which device-layer error it reports. -/
structure Device where
  rawAlloc : Nat → Except DeviceError Unit

/-- Modelled from the spec (§4.4): fitness scoring of the missing `usage`
module, following the spec's fitness table literally (§3): required bits,
forbidden bits, and preference weights in the listed order; `none` means
incompatible. -/
def memory_fitness (usage : MemoryUsageValue) (properties : Nat) : Option Nat :=
  let dl := flagsSubset properties DEVICE_LOCAL
  let hv := flagsSubset properties HOST_VISIBLE
  let coh := flagsSubset properties HOST_COHERENT
  let cached := flagsSubset properties HOST_CACHED
  let lazy := flagsSubset properties LAZILY_ALLOCATED
  match usage with
  | .data =>
    if dl then some (4 + (if cached then 2 else 0)) else none
  | .dynamic =>
    if hv && !lazy then
      some ((if dl then 4 else 0) + (if coh then 2 else 0) + (if cached then 1 else 0))
    else none
  | .upload =>
    if hv && !lazy && !cached then
      some ((if coh then 2 else 0) + (if dl then 1 else 0))
    else none
  | .download =>
    if hv && !lazy then
      some ((if cached then 4 else 0) + (if coh then 2 else 0) + (if dl then 1 else 0))
    else none

/-- Round `n` up to a multiple of `a` (`a = 0` leaves `n` unchanged). -/
def roundUp (n a : Nat) : Nat := if a = 0 then n else ((n + a - 1) / a) * a

/-- Fuel-driven floor of the base-2 logarithm (structurally recursive so that
concrete evaluations reduce in the kernel). -/
def log2fuel (fuel n : Nat) : Nat :=
  match fuel with
  | 0 => 0
  | f + 1 => if 2 ≤ n then log2fuel f (n / 2) + 1 else 0

/-- Least power of two that is at least `n` (and at least 1). -/
def nextPow2 (n : Nat) : Nat := if n ≤ 1 then 1 else 2 ^ (log2fuel (n - 1) (n - 1) + 1)

/-- Modelled from the spec (§6): configuration of the arena sub-allocator. -/
structure ArenaConfig where
  chunkSize : Nat
  maxAllocation : Nat
deriving DecidableEq, Repr

/-- Modelled from the spec (§6): configuration of the dynamic sub-allocator. -/
structure DynamicConfig where
  blocksPerChunk : Nat
  minBlock : Nat
  maxBlock : Nat
deriving DecidableEq, Repr

/-- Embedding of `HeapsConfig` (`heaps.rs`): optional per-sub-allocator
configs. -/
structure HeapsConfig where
  arena : Option ArenaConfig
  dynamic : Option DynamicConfig
deriving DecidableEq, Repr

/-- Modelled from the spec (§4.3): a dedicated block records the raw
allocation's size (device granularity modelled as 1 byte). -/
structure DedicatedBlockInfo where
  size : Nat
deriving DecidableEq, Repr

/-- Modelled from the spec (§4.3): the dedicated allocator is stateless
(no pooling); it remembers its memory type and properties. -/
structure DedicatedAllocator where
  memoryType : Nat
  properties : Nat
deriving DecidableEq, Repr

/-- Modelled from the spec (§4.3): `DedicatedAllocator::new`. -/
def DedicatedAllocator.new (memoryType properties : Nat) : DedicatedAllocator :=
  { memoryType := memoryType, properties := properties }

/-- Modelled from the spec (§4.3): one driver allocation per block;
`allocated` is the block size (device granularity 1). -/
def DedicatedAllocator.alloc (_d : DedicatedAllocator) (dev : Device) (size _align : Nat) :
    Except MemoryError (DedicatedBlockInfo × Nat) :=
  match dev.rawAlloc size with
  | .error e => .error e.toMemoryError
  | .ok _ => .ok ({ size := size }, size)

/-- Modelled from the spec (§4.3): freeing a dedicated block releases its raw
allocation immediately and reports its full size. -/
def DedicatedAllocator.free (_d : DedicatedAllocator) (_dev : Device)
    (b : DedicatedBlockInfo) : Nat := b.size

/-- Modelled from the spec (§4.4): an arena block carries its chunk index,
offset and size. -/
structure ArenaBlockInfo where
  chunkIndex : Nat
  offset : Nat
  size : Nat
deriving DecidableEq, Repr

/-- Modelled from the spec (§4.4): per-chunk bump state. -/
structure ArenaChunk where
  cursor : Nat
  usedBlocks : Nat
deriving DecidableEq, Repr

/-- Modelled from the spec (§4.4): deque of bump chunks; the last entry is the
current tail.  Drained non-tail chunks have their raw memory released but keep
a tombstone entry so block chunk indices stay stable. -/
structure ArenaAllocator where
  memoryType : Nat
  properties : Nat
  config : ArenaConfig
  chunks : List ArenaChunk
deriving DecidableEq, Repr

/-- Modelled from the spec (§4.4): `ArenaAllocator::new`. -/
def ArenaAllocator.new (memoryType properties : Nat) (config : ArenaConfig) : ArenaAllocator :=
  { memoryType := memoryType, properties := properties, config := config, chunks := [] }

/-- Modelled from the spec (§4.4): property precondition of the arena
allocator (host-visible). -/
def ArenaAllocator.properties_required : Nat := HOST_VISIBLE

/-- Modelled from the spec (§4.2): the configured per-allocator cap. -/
def ArenaAllocator.max_allocation (a : ArenaAllocator) : Nat := a.config.maxAllocation

/-- Modelled from the spec (§4.4): bump allocation; if the tail chunk has no
room, a fresh chunk is acquired from the device and `allocated` reports the
full chunk size, otherwise `allocated = 0`.  The state is returned alongside
the result (unchanged when the device refuses the new chunk). -/
def ArenaAllocator.alloc (a : ArenaAllocator) (dev : Device) (size align : Nat) :
    (Except MemoryError (ArenaBlockInfo × Nat)) × ArenaAllocator :=
  let n := a.chunks.length
  let tailRoom : Option (Nat × ArenaChunk) :=
    match a.chunks.getLast? with
    | some c =>
      let off := roundUp c.cursor align
      if off + size ≤ a.config.chunkSize then some (off, c) else none
    | none => none
  match tailRoom with
  | some (off, c) =>
    let c2 : ArenaChunk := { cursor := off + size, usedBlocks := c.usedBlocks + 1 }
    (.ok ({ chunkIndex := n - 1, offset := off, size := size }, 0),
      { a with chunks := a.chunks.set (n - 1) c2 })
  | none =>
    match dev.rawAlloc a.config.chunkSize with
    | .error e => (.error e.toMemoryError, a)
    | .ok _ =>
      (.ok ({ chunkIndex := n, offset := 0, size := size }, a.config.chunkSize),
        { a with chunks := a.chunks ++ [{ cursor := size, usedBlocks := 1 }] })

/-- Modelled from the spec (§4.4): decrement the chunk's block count; a
drained non-tail chunk releases its raw memory (`freed = chunkSize`),
otherwise nothing is released.  Freeing against an unknown chunk is a
programmer error and modelled as releasing nothing. -/
def ArenaAllocator.free (a : ArenaAllocator) (b : ArenaBlockInfo) : Nat × ArenaAllocator :=
  match a.chunks.get? b.chunkIndex with
  | some c =>
    let c2 : ArenaChunk := { c with usedBlocks := c.usedBlocks - 1 }
    let a2 : ArenaAllocator := { a with chunks := a.chunks.set b.chunkIndex c2 }
    if c2.usedBlocks = 0 && b.chunkIndex + 1 != a.chunks.length then
      (a.config.chunkSize, a2)
    else
      (0, a2)
  | none => (0, a)

/-- Modelled from the spec (§4.5): a dynamic block carries its size class,
chunk index and slot. -/
structure DynamicBlockInfo where
  classSize : Nat
  chunkIndex : Nat
  slot : Nat
deriving DecidableEq, Repr

/-- Modelled from the spec (§4.5): size-classed bitmap allocator.  `classes`
associates a class size with its chunk list; a chunk is a slot bitmap
(`none` marks a chunk whose raw memory has been released, keeping indices
stable).  Classes are materialised on first demand, which is observationally
the same as the fixed table of §4.5. -/
structure DynamicAllocator where
  memoryType : Nat
  properties : Nat
  config : DynamicConfig
  classes : List (Nat × List (Option Nat))
deriving DecidableEq, Repr

/-- Modelled from the spec (§4.5): `DynamicAllocator::new`. -/
def DynamicAllocator.new (memoryType properties : Nat) (config : DynamicConfig) : DynamicAllocator :=
  { memoryType := memoryType, properties := properties, config := config, classes := [] }

/-- Modelled from the spec (§4.5): the dynamic allocator has no property
precondition of its own. -/
def DynamicAllocator.properties_required : Nat := 0

/-- Modelled from the spec (§4.2, §4.5): the dynamic allocator's cap is its
largest size class. -/
def DynamicAllocator.max_allocation (d : DynamicAllocator) : Nat := d.config.maxBlock

/-- Update (or insert) the chunk list of one size class in the association
list. -/
def assocUpdate (k : Nat) (v : List (Option Nat)) :
    List (Nat × List (Option Nat)) → List (Nat × List (Option Nat))
  | [] => [(k, v)]
  | (k2, v2) :: rest =>
    if k = k2 then (k, v) :: rest else (k2, v2) :: assocUpdate k v rest

/-- Index of the lowest clear bit of `n`, searching the first `fuel` bits. -/
def lowestClearBit (fuel n : Nat) : Nat :=
  match fuel with
  | 0 => 0
  | f + 1 => if n % 2 = 0 then 0 else lowestClearBit f (n / 2) + 1

/-- Modelled from the spec (§4.5): round the request to its size class, claim
the lowest free slot of the first chunk that has one, or acquire a fresh chunk
from the device; `allocated` is the full chunk size exactly when a fresh chunk
was created, else 0. -/
def DynamicAllocator.alloc (d : DynamicAllocator) (dev : Device) (size align : Nat) :
    (Except MemoryError (DynamicBlockInfo × Nat)) × DynamicAllocator :=
  let required := min (nextPow2 (max size (max align d.config.minBlock))) d.config.maxBlock
  let full := 2 ^ d.config.blocksPerChunk - 1
  let chunks := ((d.classes.lookup required).getD [])
  let foundIdx := chunks.findIdx? (fun c =>
    match c with
    | some bm => bm != full
    | none => false)
  match foundIdx with
  | some ci =>
    match chunks.get? ci with
    | some (some bm) =>
      let slot := lowestClearBit d.config.blocksPerChunk bm
      let bm2 := bm ||| (1 <<< slot)
      (.ok ({ classSize := required, chunkIndex := ci, slot := slot }, 0),
        { d with classes := assocUpdate required (chunks.set ci (some bm2)) d.classes })
    | _ => (.error .OutOfDeviceMemory, d)
  | none =>
    match dev.rawAlloc (required * d.config.blocksPerChunk) with
    | .error e => (.error e.toMemoryError, d)
    | .ok _ =>
      (.ok ({ classSize := required, chunkIndex := chunks.length, slot := 0 },
          required * d.config.blocksPerChunk),
        { d with classes := assocUpdate required (chunks ++ [some 1]) d.classes })

/-- Modelled from the spec (§4.5): clear the slot bit; a chunk that becomes
entirely free returns its raw memory (`freed = chunkSize`) and is tombstoned.
Freeing an unknown slot is a programmer error and modelled as releasing
nothing. -/
def DynamicAllocator.free (d : DynamicAllocator) (b : DynamicBlockInfo) : Nat × DynamicAllocator :=
  let chunks := ((d.classes.lookup b.classSize).getD [])
  match chunks.get? b.chunkIndex with
  | some (some bm) =>
    let bm2 := if bm.testBit b.slot then bm - (1 <<< b.slot) else bm
    if bm2 = 0 then
      (b.classSize * d.config.blocksPerChunk,
        { d with classes := assocUpdate b.classSize (chunks.set b.chunkIndex none) d.classes })
    else
      (0, { d with classes := assocUpdate b.classSize (chunks.set b.chunkIndex (some bm2)) d.classes })
  | _ => (0, d)

/-- Embedding of `BlockFlavor` (`heaps.rs`): tagged variant over the three
sub-allocator block kinds. -/
inductive BlockFlavor
  | dedicated (b : DedicatedBlockInfo)
  | arena (b : ArenaBlockInfo)
  | dynamic (b : DynamicBlockInfo)
deriving DecidableEq, Repr

/-- Embedding of `MemoryType` (`heaps.rs`): one dedicated allocator plus the
optional arena and dynamic sub-allocators for one driver memory type. -/
structure MemoryType where
  heap_index : Nat
  properties : Nat
  dedicated : DedicatedAllocator
  arena : Option ArenaAllocator
  dynamic : Option DynamicAllocator
deriving DecidableEq, Repr

/-- Embedding of `MemoryType::new` (`heaps.rs` lines 270-295): a sub-allocator
is built exactly when its required properties are a subset of `properties`
and the caller supplied its config. -/
def MemoryType.new (memory_type heap_index properties : Nat) (config : HeapsConfig) : MemoryType :=
  { properties := properties
    heap_index := heap_index
    dedicated := DedicatedAllocator.new memory_type properties
    arena :=
      if flagsSubset properties ArenaAllocator.properties_required then
        config.arena.map (fun c => ArenaAllocator.new memory_type properties c)
      else none
    dynamic :=
      if flagsSubset properties DynamicAllocator.properties_required then
        config.dynamic.map (fun c => DynamicAllocator.new memory_type properties c)
      else none }

/-- Wrapper for the arm of `MemoryType::alloc` that routes to the arena
sub-allocator, writing back the arena's new state. -/
def MemoryType.allocFromArena (mt : MemoryType) (ar : ArenaAllocator) (dev : Device)
    (size align : Nat) : (Except MemoryError (BlockFlavor × Nat)) × MemoryType :=
  match ar.alloc dev size align with
  | (.ok (b, allocated), ar2) => (.ok (.arena b, allocated), { mt with arena := some ar2 })
  | (.error e, ar2) => (.error e, { mt with arena := some ar2 })

/-- Wrapper for the arm of `MemoryType::alloc` that routes to the dynamic
sub-allocator, writing back the dynamic allocator's new state. -/
def MemoryType.allocFromDynamic (mt : MemoryType) (dy : DynamicAllocator) (dev : Device)
    (size align : Nat) : (Except MemoryError (BlockFlavor × Nat)) × MemoryType :=
  match dy.alloc dev size align with
  | (.ok (b, allocated), dy2) => (.ok (.dynamic b, allocated), { mt with dynamic := some dy2 })
  | (.error e, dy2) => (.error e, { mt with dynamic := some dy2 })

/-- Wrapper for the fallback arm of `MemoryType::alloc`: the dedicated
allocator (stateless). -/
def MemoryType.allocDedicated (mt : MemoryType) (dev : Device)
    (size align : Nat) : (Except MemoryError (BlockFlavor × Nat)) × MemoryType :=
  match mt.dedicated.alloc dev size align with
  | .ok (b, allocated) => (.ok (.dedicated b, allocated), mt)
  | .error e => (.error e, mt)

/-- Embedding of `MemoryType::alloc` (`heaps.rs` lines 297-332): route by
usage value and size, mirroring the Rust match with its guards (a failed
guard falls through to the dedicated arm). -/
def MemoryType.alloc (mt : MemoryType) (dev : Device) (usage : MemoryUsageValue)
    (size align : Nat) : (Except MemoryError (BlockFlavor × Nat)) × MemoryType :=
  match usage, mt.arena, mt.dynamic with
  | .upload, some ar, _ =>
    if size ≤ ar.max_allocation then mt.allocFromArena ar dev size align
    else mt.allocDedicated dev size align
  | .download, some ar, _ =>
    if size ≤ ar.max_allocation then mt.allocFromArena ar dev size align
    else mt.allocDedicated dev size align
  | .dynamic, _, some dy =>
    if size ≤ dy.max_allocation then mt.allocFromDynamic dy dev size align
    else mt.allocDedicated dev size align
  | .data, _, some dy =>
    if size ≤ dy.max_allocation then mt.allocFromDynamic dy dev size align
    else mt.allocDedicated dev size align
  | _, _, _ => mt.allocDedicated dev size align

/-- Embedding of `MemoryType::free` (`heaps.rs` lines 334-340): dispatch on
the block variant; the Rust `unwrap` on an absent sub-allocator is the panic
case `none`. -/
def MemoryType.free (mt : MemoryType) (dev : Device) (block : BlockFlavor) :
    Option (Nat × MemoryType) :=
  match block with
  | .dedicated b => some (mt.dedicated.free dev b, mt)
  | .arena b =>
    match mt.arena with
    | none => none
    | some ar =>
      let r := ar.free b
      some (r.1, { mt with arena := some r.2 })
  | .dynamic b =>
    match mt.dynamic with
    | none => none
    | some dy =>
      let r := dy.free b
      some (r.1, { mt with dynamic := some r.2 })

/-- Embedding of `MemoryHeap` (`heaps.rs` lines 243-247). -/
structure MemoryHeap where
  size : Nat
  used : Nat
deriving DecidableEq, Repr

/-- Embedding of `MemoryHeap::available` (`heaps.rs` lines 254-256):
`size - used` (`u64` subtraction; truncated `Nat` subtraction agrees with it
whenever `used ≤ size`). -/
def MemoryHeap.available (h : MemoryHeap) : Nat := h.size - h.used

/-- Embedding of `MemoryBlock` (`heaps.rs` lines 164-167). -/
structure MemoryBlock where
  block : BlockFlavor
  memory_index : Nat
deriving DecidableEq, Repr

/-- Embedding of `MemoryBlock::memory_type` (`heaps.rs` lines 171-173). -/
def MemoryBlock.memory_type (b : MemoryBlock) : Nat := b.memory_index

/-- Embedding of `Heaps` (`heaps.rs` lines 27-30). -/
structure Heaps where
  types : List MemoryType
  heaps : List MemoryHeap
deriving DecidableEq, Repr

/-- Embedding of `Heaps::allocate_from` (`heaps.rs` lines 111-136).  `none`
models the slice-indexing panics; the budget recheck precedes the
sub-allocator call; a sub-allocator error is returned with the (written-back)
sub-allocator state but with the heap accounting untouched; on success the
reported `allocated` is added to the owning heap's `used`. -/
def Heaps.allocate_from (h : Heaps) (dev : Device) (memory_index : Nat)
    (usage : MemoryUsageValue) (size align : Nat) :
    Option ((Except MemoryError MemoryBlock) × Heaps) :=
  match h.types.get? memory_index with
  | none => none
  | some mt =>
    match h.heaps.get? mt.heap_index with
    | none => none
    | some heap =>
      if heap.available < size then
        some (.error .HeapsExhausted, h)
      else
        match mt.alloc dev usage size align with
        | (.error e, mt2) =>
          some (.error e, { h with types := h.types.set memory_index mt2 })
        | (.ok (block, allocated), mt2) =>
          let heap2 : MemoryHeap := { heap with used := heap.used + allocated }
          some (.ok { block := block, memory_index := memory_index },
            { types := h.types.set memory_index mt2,
              heaps := h.heaps.set mt.heap_index heap2 })

/-- Embedding of the `suitable_types` collection of `Heaps::allocate`
(`heaps.rs` lines 81-90): enumerate, keep those whose bit is set in `mask`,
and keep fitness-compatible ones together with their fitness. -/
def Heaps.suitableTypes (h : Heaps) (mask : Nat) (usage : MemoryUsageValue) :
    List (Nat × MemoryType × Nat) :=
  (h.types.enum.filter (fun p => mask &&& (1 <<< p.1) != 0)).filterMap
    (fun p => (memory_fitness usage p.2.properties).map (fun f => (p.1, p.2, f)))

/-- The heap-budget filter of `Heaps::allocate` (`heaps.rs` line 98): keep
candidates whose heap has `available > size + align`. -/
def Heaps.budgetTypes (h : Heaps) (mask : Nat) (usage : MemoryUsageValue)
    (size align : Nat) : List (Nat × MemoryType × Nat) :=
  (h.suitableTypes mask usage).filter
    (fun e => decide (size + align < (h.heaps.getD e.2.1.heap_index { size := 0, used := 0 }).available))

/-- Rust's `Iterator::max_by_key`: the LAST of the maximal elements. -/
def maxByKeyLast (key : α → Nat) : List α → Option α
  | [] => none
  | x :: xs => some (xs.foldl (fun best y => if key best ≤ key y then y else best) x)

/-- Embedding of `Heaps::allocate` (`heaps.rs` lines 70-104): empty mask-and-
fitness selection errors with `NoSuitableMemory`; evaluating the budget filter
indexes `self.heaps` by each candidate's `heap_index`, which panics (`none`)
when out of range; an emptied budget filter errors with `HeapsExhausted`;
otherwise the fittest (last maximal, per Rust `max_by_key`) candidate's index
is handed to `allocate_from`. -/
def Heaps.allocate (h : Heaps) (dev : Device) (mask : Nat) (usage : MemoryUsageValue)
    (size align : Nat) : Option ((Except MemoryError MemoryBlock) × Heaps) :=
  if (h.suitableTypes mask usage).isEmpty then
    some (.error (.NoSuitableMemory mask usage), h)
  else if (h.suitableTypes mask usage).any
      (fun e => decide (h.heaps.length ≤ e.2.1.heap_index)) then
    none
  else
    match maxByKeyLast (fun e => e.2.2) (h.budgetTypes mask usage size align) with
    | none => some (.error .HeapsExhausted, h)
    | some e => h.allocate_from dev e.1 usage size align

/-- Embedding of `Heaps::free` (`heaps.rs` lines 141-150): the
`debug_assert` on `fits_usize(memory_index)` is vacuous for a `u32` on a
64-bit target and is not modelled; `none` models the slice-indexing panics,
the `unwrap` panic inside `MemoryType::free`, and the debug `u64` underflow
of `used -= freed`; otherwise `freed` is subtracted from the owning heap's
`used`. -/
def Heaps.free (h : Heaps) (dev : Device) (block : MemoryBlock) : Option Heaps :=
  match h.types.get? block.memory_index with
  | none => none
  | some mt =>
    match h.heaps.get? mt.heap_index with
    | none => none
    | some heap =>
      match mt.free dev block.block with
      | none => none
      | some (freed, mt2) =>
        if heap.used < freed then none
        else
          let heap2 : MemoryHeap := { heap with used := heap.used - freed }
          some { types := h.types.set block.memory_index mt2,
                 heaps := h.heaps.set mt.heap_index heap2 }

/-- Well-formedness established by `Heaps::new` (`heaps.rs` line 58): every
memory type's heap index is in range. -/
def Heaps.WF (h : Heaps) : Prop :=
  ∀ mt ∈ h.types, mt.heap_index < h.heaps.length

/-- The budget invariant of spec §8.2: every heap's used byte count is at most
its size. -/
def Heaps.HeapInv (h : Heaps) : Prop :=
  ∀ heap ∈ h.heaps, heap.used ≤ heap.size

instance (h : Heaps) : Decidable h.WF := by
  unfold Heaps.WF; infer_instance

instance (h : Heaps) : Decidable h.HeapInv := by
  unfold Heaps.HeapInv; infer_instance

/-! ### Concrete fixtures used by witnesses and counterexamples -/

/-- A device whose raw allocations always succeed. -/
def okDevice : Device := { rawAlloc := fun _ => .ok () }

/-- A device whose raw allocations always fail with `OutOfDeviceMemory`. -/
def failDevice : Device := { rawAlloc := fun _ => .error .OutOfDeviceMemory }

/-- A host-visible memory type with a dynamic sub-allocator of 64 one-byte
blocks per chunk. -/
def exTypeDyn : MemoryType :=
  MemoryType.new 0 0 HOST_VISIBLE
    { arena := none, dynamic := some { blocksPerChunk := 64, minBlock := 1, maxBlock := 4 } }

/-- A tiny heap (8 bytes) paired with `exTypeDyn`. -/
def exHeapsDyn : Heaps := { types := [exTypeDyn], heaps := [{ size := 8, used := 0 }] }

/-- A plain device-local memory type with neither arena nor dynamic
sub-allocator. -/
def exTypeDed : MemoryType :=
  MemoryType.new 0 0 DEVICE_LOCAL { arena := none, dynamic := none }

/-- A second device-local memory type with the same properties (for the
tie-break scenario). -/
def exTypeDedB : MemoryType :=
  MemoryType.new 1 0 DEVICE_LOCAL { arena := none, dynamic := none }

/-- Two identical device-local types drawing from one large heap. -/
def exHeapsTie : Heaps :=
  { types := [exTypeDed, exTypeDedB], heaps := [{ size := 1000, used := 0 }] }

/-- One device-local type on a 500-byte heap. -/
def exHeapsDed : Heaps := { types := [exTypeDed], heaps := [{ size := 500, used := 0 }] }

/-- One device-local type on a heap with 50 bytes already in use. -/
def exHeapsUsed : Heaps := { types := [exTypeDed], heaps := [{ size := 100, used := 50 }] }

/-! ### Inversion lemmas for the selection pipeline -/

theorem mem_suitableTypes {h : Heaps} {mask : Nat} {usage : MemoryUsageValue}
    {e : Nat × MemoryType × Nat} :
    e ∈ h.suitableTypes mask usage ↔
      h.types.get? e.1 = some e.2.1 ∧ (mask &&& (1 <<< e.1) != 0) = true ∧
        memory_fitness usage e.2.1.properties = some e.2.2 := by
  obtain ⟨i, mt, f⟩ := e
  constructor
  · intro hmem
    simp only [Heaps.suitableTypes, List.mem_filterMap] at hmem
    obtain ⟨⟨j, mt2⟩, hmem2, hmap⟩ := hmem
    simp only [Option.map_eq_some'] at hmap
    obtain ⟨f2, hf, heq⟩ := hmap
    cases heq
    simp only [List.mem_filter] at hmem2
    obtain ⟨henum, hmask⟩ := hmem2
    rw [List.mk_mem_enum_iff_getElem?] at henum
    exact ⟨by rw [List.get?_eq_getElem?]; exact henum, hmask, hf⟩
  · rintro ⟨hget, hmask, hfit⟩
    simp only [Heaps.suitableTypes, List.mem_filterMap]
    refine ⟨(i, mt), ?_, ?_⟩
    · rw [List.mem_filter]
      refine ⟨List.mk_mem_enum_iff_getElem?.2 ?_, hmask⟩
      rw [← List.get?_eq_getElem?]; exact hget
    · simp [hfit]

theorem mem_budgetTypes {h : Heaps} {mask : Nat} {usage : MemoryUsageValue}
    {size align : Nat} {e : Nat × MemoryType × Nat} :
    e ∈ h.budgetTypes mask usage size align ↔
      e ∈ h.suitableTypes mask usage ∧
        size + align < (h.heaps.getD e.2.1.heap_index { size := 0, used := 0 }).available := by
  simp [Heaps.budgetTypes, List.mem_filter]

theorem maxByKeyLast_eq_none {key : α → Nat} {l : List α} :
    maxByKeyLast key l = none ↔ l = [] := by
  cases l <;> simp [maxByKeyLast]

theorem allocate_from_eq_ok {h : Heaps} {dev : Device} {i : Nat} {usage : MemoryUsageValue}
    {size align : Nat} {blk : MemoryBlock} {h2 : Heaps}
    (hr : h.allocate_from dev i usage size align = some (.ok blk, h2)) :
    ∃ mt heap b a mt2,
      h.types.get? i = some mt ∧
      h.heaps.get? mt.heap_index = some heap ∧
      ¬ heap.available < size ∧
      mt.alloc dev usage size align = (.ok (b, a), mt2) ∧
      blk = { block := b, memory_index := i } ∧
      h2 = { types := h.types.set i mt2,
             heaps := h.heaps.set mt.heap_index { heap with used := heap.used + a } } := by
  unfold Heaps.allocate_from at hr
  split at hr
  · exact absurd hr (by simp)
  · rename_i mt hget
    split at hr
    · exact absurd hr (by simp)
    · rename_i heap hheap
      split at hr
      · exact absurd hr (by simp)
      · rename_i havail
        split at hr
        · exact absurd hr (by simp)
        · rename_i block allocated mt2 halloc
          simp only [Option.some_inj, Prod.mk.injEq, Except.ok.injEq] at hr
          exact ⟨mt, heap, block, allocated, mt2, hget, hheap, havail, halloc,
            hr.1.symm, hr.2.symm⟩

theorem allocate_from_eq_error {h : Heaps} {dev : Device} {i : Nat} {usage : MemoryUsageValue}
    {size align : Nat} {e : MemoryError} {h2 : Heaps}
    (hr : h.allocate_from dev i usage size align = some (.error e, h2)) :
    ∃ mt heap,
      h.types.get? i = some mt ∧
      h.heaps.get? mt.heap_index = some heap ∧
      ((heap.available < size ∧ e = .HeapsExhausted ∧ h2 = h) ∨
        (¬ heap.available < size ∧ ∃ mt2, mt.alloc dev usage size align = (.error e, mt2) ∧
          h2 = { h with types := h.types.set i mt2 })) := by
  unfold Heaps.allocate_from at hr
  split at hr
  · exact absurd hr (by simp)
  · rename_i mt hget
    split at hr
    · exact absurd hr (by simp)
    · rename_i heap hheap
      split at hr
      · rename_i havail
        simp only [Option.some_inj, Prod.mk.injEq, Except.error.injEq] at hr
        exact ⟨mt, heap, hget, hheap, .inl ⟨havail, hr.1.symm, hr.2.symm⟩⟩
      · rename_i havail
        split at hr
        · rename_i e2 mt2 halloc
          simp only [Option.some_inj, Prod.mk.injEq, Except.error.injEq] at hr
          refine ⟨mt, heap, hget, hheap, .inr ⟨havail, mt2, ?_, hr.2.symm⟩⟩
          rw [halloc, hr.1]
        · exact absurd hr (by simp)

/-- Errors injected from the device layer are device errors. -/
theorem DeviceError.toMemoryError_isDevice (e : DeviceError) :
    e.toMemoryError.isDeviceError := by
  cases e <;> trivial

/-- Every error the arena allocator reports is a device-layer error. -/
theorem arena_alloc_error_isDevice {a : ArenaAllocator} {dev : Device}
    {size align : Nat} {e : MemoryError} {a2 : ArenaAllocator}
    (h : a.alloc dev size align = (.error e, a2)) : e.isDeviceError := by
  unfold ArenaAllocator.alloc at h
  dsimp only at h
  split at h
  · exact absurd h (by simp)
  · split at h
    · rename_i e2 heq
      simp only [Prod.mk.injEq, Except.error.injEq] at h
      rw [← h.1]
      exact DeviceError.toMemoryError_isDevice e2
    · exact absurd h (by simp)

/-- Every error the dynamic allocator reports is a device-layer error. -/
theorem dynamic_alloc_error_isDevice {d : DynamicAllocator} {dev : Device}
    {size align : Nat} {e : MemoryError} {d2 : DynamicAllocator}
    (h : d.alloc dev size align = (.error e, d2)) : e.isDeviceError := by
  unfold DynamicAllocator.alloc at h
  dsimp only at h
  split at h
  · split at h
    · exact absurd h (by simp)
    · simp only [Prod.mk.injEq, Except.error.injEq] at h
      rw [← h.1]; trivial
  · split at h
    · rename_i e2 heq
      simp only [Prod.mk.injEq, Except.error.injEq] at h
      rw [← h.1]
      exact DeviceError.toMemoryError_isDevice e2
    · exact absurd h (by simp)

/-- Every error the dedicated allocator reports is a device-layer error. -/
theorem dedicated_alloc_error_isDevice {d : DedicatedAllocator} {dev : Device}
    {size align : Nat} {e : MemoryError}
    (h : d.alloc dev size align = .error e) : e.isDeviceError := by
  unfold DedicatedAllocator.alloc at h
  split at h
  · rename_i e2 heq
    simp only [Except.error.injEq] at h
    rw [← h]
    exact DeviceError.toMemoryError_isDevice e2
  · exact absurd h (by simp)

/-- Every error `MemoryType::alloc` reports is a device-layer error. -/
theorem memory_type_alloc_error_isDevice {mt : MemoryType} {dev : Device}
    {usage : MemoryUsageValue} {size align : Nat} {e : MemoryError} {mt2 : MemoryType}
    (h : mt.alloc dev usage size align = (.error e, mt2)) : e.isDeviceError := by
  have harena : ∀ ar, mt.allocFromArena ar dev size align = (.error e, mt2) →
      e.isDeviceError := by
    intro ar hr
    unfold MemoryType.allocFromArena at hr
    split at hr
    · exact absurd hr (by simp)
    · rename_i e2 ar2 heq
      simp only [Prod.mk.injEq, Except.error.injEq] at hr
      rw [← hr.1]
      exact arena_alloc_error_isDevice heq
  have hdyn : ∀ dy, mt.allocFromDynamic dy dev size align = (.error e, mt2) →
      e.isDeviceError := by
    intro dy hr
    unfold MemoryType.allocFromDynamic at hr
    split at hr
    · exact absurd hr (by simp)
    · rename_i e2 dy2 heq
      simp only [Prod.mk.injEq, Except.error.injEq] at hr
      rw [← hr.1]
      exact dynamic_alloc_error_isDevice heq
  have hded : mt.allocDedicated dev size align = (.error e, mt2) → e.isDeviceError := by
    intro hr
    unfold MemoryType.allocDedicated at hr
    split at hr
    · exact absurd hr (by simp)
    · rename_i e2 heq
      simp only [Prod.mk.injEq, Except.error.injEq] at hr
      rw [← hr.1]
      exact dedicated_alloc_error_isDevice heq
  unfold MemoryType.alloc at h
  split at h
  · split at h
    · exact harena _ h
    · exact hded h
  · split at h
    · exact harena _ h
    · exact hded h
  · split at h
    · exact hdyn _ h
    · exact hded h
  · split at h
    · exact hdyn _ h
    · exact hded h
  · exact hded h

/-- Heap accounting is untouched on every error path of `Heaps::allocate`
(helper shared by several claim theorems). -/
theorem allocate_error_heaps_unchanged {h : Heaps} {dev : Device} {mask : Nat}
    {usage : MemoryUsageValue} {size align : Nat} {e : MemoryError} {h2 : Heaps}
    (hr : h.allocate dev mask usage size align = some (.error e, h2)) :
    h2.heaps = h.heaps := by
  unfold Heaps.allocate at hr
  split at hr
  · simp only [Option.some_inj, Prod.mk.injEq] at hr
    rw [← hr.2]
  · split at hr
    · exact absurd hr (by simp)
    · split at hr
      · simp only [Option.some_inj, Prod.mk.injEq] at hr
        rw [← hr.2]
      · obtain ⟨mt, heap, hget, hheap, hcase⟩ := allocate_from_eq_error hr
        rcases hcase with ⟨_, _, rfl⟩ | ⟨_, mt2, _, rfl⟩ <;> rfl

/-- A successful `Heaps::allocate` went through the selection match and then
`allocate_from` at the selected index (helper shared by several claim
theorems). -/
theorem allocate_ok_from {h : Heaps} {dev : Device} {mask : Nat}
    {usage : MemoryUsageValue} {size align : Nat} {blk : MemoryBlock} {h2 : Heaps}
    (hr : h.allocate dev mask usage size align = some (.ok blk, h2)) :
    ∃ sel, maxByKeyLast (fun e => e.2.2) (h.budgetTypes mask usage size align) = some sel ∧
      blk.memory_index = sel.1 ∧
      h.allocate_from dev sel.1 usage size align = some (.ok blk, h2) := by
  unfold Heaps.allocate at hr
  split at hr
  · exact absurd hr (by simp)
  · split at hr
    · exact absurd hr (by simp)
    · split at hr
      · exact absurd hr (by simp)
      · rename_i sel hmax
        refine ⟨sel, hmax, ?_, hr⟩
        obtain ⟨mt, heap, b, a, mt2, _, _, _, _, hblk, _⟩ := allocate_from_eq_ok hr
        rw [hblk]

/-! ### Claim theorems -/

/-- C7: in a `MemoryType` constructed by `MemoryType::new`, the arena
sub-allocator is present iff the property flags include the arena allocator's
required properties and an arena config was supplied; the same holds for the
dynamic sub-allocator with its required properties and config; the dedicated
allocator is always present. -/
theorem memory_type_new_suballocator_presence (memory_type heap_index properties : Nat)
    (config : HeapsConfig) :
    ((MemoryType.new memory_type heap_index properties config).arena.isSome = true ↔
      flagsSubset properties ArenaAllocator.properties_required = true ∧
        config.arena.isSome = true) ∧
    ((MemoryType.new memory_type heap_index properties config).dynamic.isSome = true ↔
      flagsSubset properties DynamicAllocator.properties_required = true ∧
        config.dynamic.isSome = true) ∧
    (MemoryType.new memory_type heap_index properties config).dedicated
      = DedicatedAllocator.new memory_type properties := by
  refine ⟨?_, ?_, rfl⟩
  · by_cases hs : flagsSubset properties ArenaAllocator.properties_required = true
    · cases harena : config.arena <;> simp [MemoryType.new, hs, harena]
    · simp [MemoryType.new, hs]
  · by_cases hs : flagsSubset properties DynamicAllocator.properties_required = true
    · cases hdyn : config.dynamic <;> simp [MemoryType.new, hs, hdyn]
    · simp [MemoryType.new, hs]

/-- C5: `MemoryType::alloc` routes Upload/Download to the arena allocator
exactly when it is present and `size` fits its cap, Dynamic/Data to the
dynamic allocator exactly when it is present and `size` fits its cap, and
every other case to the dedicated allocator. -/
theorem memory_type_alloc_routing (mt : MemoryType) (dev : Device)
    (usage : MemoryUsageValue) (size align : Nat) :
    (∀ ar, (usage = .upload ∨ usage = .download) → mt.arena = some ar →
      size ≤ ar.max_allocation →
      mt.alloc dev usage size align = mt.allocFromArena ar dev size align) ∧
    ((usage = .upload ∨ usage = .download) →
      (mt.arena = none ∨ ∀ ar, mt.arena = some ar → ar.max_allocation < size) →
      mt.alloc dev usage size align = mt.allocDedicated dev size align) ∧
    (∀ dy, (usage = .dynamic ∨ usage = .data) → mt.dynamic = some dy →
      size ≤ dy.max_allocation →
      mt.alloc dev usage size align = mt.allocFromDynamic dy dev size align) ∧
    ((usage = .dynamic ∨ usage = .data) →
      (mt.dynamic = none ∨ ∀ dy, mt.dynamic = some dy → dy.max_allocation < size) →
      mt.alloc dev usage size align = mt.allocDedicated dev size align) := by
  refine ⟨?_, ?_, ?_, ?_⟩
  · rintro ar (rfl | rfl) har hle <;> simp [MemoryType.alloc, har, hle]
  · rintro (rfl | rfl) hcase <;>
    · cases harena : mt.arena with
      | none => cases hdyn : mt.dynamic <;> simp [MemoryType.alloc, harena, hdyn]
      | some ar =>
        rcases hcase with hnone | hbig
        · rw [harena] at hnone; exact absurd hnone (by simp)
        · have hgt := hbig ar harena
          cases hdyn : mt.dynamic <;>
            simp [MemoryType.alloc, harena, hdyn, Nat.not_le.mpr hgt]
  · rintro dy (rfl | rfl) hdy hle <;>
      cases harena : mt.arena <;> simp [MemoryType.alloc, harena, hdy, hle]
  · rintro (rfl | rfl) hcase <;>
    · cases hdyn : mt.dynamic with
      | none => cases harena : mt.arena <;> simp [MemoryType.alloc, harena, hdyn]
      | some dy =>
        rcases hcase with hnone | hbig
        · rw [hdyn] at hnone; exact absurd hnone (by simp)
        · have hgt := hbig dy hdyn
          cases harena : mt.arena <;>
            simp [MemoryType.alloc, harena, hdyn, Nat.not_le.mpr hgt]

/-- C5 witness: on a memory type with a dynamic allocator capped at 4 bytes,
a 1-byte Dynamic request is routed to the dynamic allocator. -/
theorem memory_type_alloc_routing_witness :
    (exTypeDyn.dynamic = some (DynamicAllocator.new 0 HOST_VISIBLE
      { blocksPerChunk := 64, minBlock := 1, maxBlock := 4 })) ∧
    exTypeDyn.alloc okDevice .dynamic 1 1 =
      exTypeDyn.allocFromDynamic (DynamicAllocator.new 0 HOST_VISIBLE
        { blocksPerChunk := 64, minBlock := 1, maxBlock := 4 }) okDevice 1 1 :=
  ⟨by decide,
    (memory_type_alloc_routing exTypeDyn okDevice .dynamic 1 1).2.2.1
      (DynamicAllocator.new 0 HOST_VISIBLE
        { blocksPerChunk := 64, minBlock := 1, maxBlock := 4 })
      (Or.inl rfl) (by decide) (by decide)⟩

/-- C8: `MemoryType::free` dispatches on the block's variant; freeing an
arena (resp. dynamic) block when that sub-allocator is absent panics
(modelled as `none`) instead of returning an error value. -/
theorem memory_type_free_dispatch (mt : MemoryType) (dev : Device) :
    (∀ b, mt.free dev (.dedicated b) = some (mt.dedicated.free dev b, mt)) ∧
    (∀ b, mt.arena = none → mt.free dev (.arena b) = none) ∧
    (∀ b ar, mt.arena = some ar →
      mt.free dev (.arena b) =
        some ((ar.free b).1, { mt with arena := some (ar.free b).2 })) ∧
    (∀ b, mt.dynamic = none → mt.free dev (.dynamic b) = none) ∧
    (∀ b dy, mt.dynamic = some dy →
      mt.free dev (.dynamic b) =
        some ((dy.free b).1, { mt with dynamic := some (dy.free b).2 })) := by
  refine ⟨fun b => rfl, ?_, ?_, ?_, ?_⟩
  · intro b hn; simp [MemoryType.free, hn]
  · intro b ar ha; simp [MemoryType.free, ha]
  · intro b hn; simp [MemoryType.free, hn]
  · intro b dy hd; simp [MemoryType.free, hd]

/-- C8 witness: freeing an arena block on a memory type without an arena
sub-allocator panics (`none`). -/
theorem memory_type_free_dispatch_witness :
    exTypeDed.arena = none ∧
    exTypeDed.free okDevice (.arena { chunkIndex := 0, offset := 0, size := 0 }) = none :=
  ⟨by decide,
    (memory_type_free_dispatch exTypeDed okDevice).2.1
      { chunkIndex := 0, offset := 0, size := 0 } (by decide)⟩

/-- C10: `Heaps::allocate_from` performs its own budget admission: whenever
the target heap's available bytes are strictly below `size`, it returns
`HeapsExhausted` with the heap accounting unchanged, for every device (hence
before any sub-allocator is consulted). -/
theorem allocate_from_budget_admission (h : Heaps) (dev : Device) (memory_index : Nat)
    (usage : MemoryUsageValue) (size align : Nat) (mt : MemoryType) (heap : MemoryHeap)
    (hget : h.types.get? memory_index = some mt)
    (hheap : h.heaps.get? mt.heap_index = some heap)
    (hlt : heap.available < size) :
    h.allocate_from dev memory_index usage size align =
      some (.error .HeapsExhausted, h) := by
  unfold Heaps.allocate_from
  rw [hget]
  simp only []
  rw [hheap]
  simp [hlt]

/-- C10 witness: a heap with 50 of 100 bytes available refuses a 60-byte
request through `allocate_from`, leaving the state unchanged. -/
theorem allocate_from_budget_admission_witness :
    exHeapsUsed.types.get? 0 = some exTypeDed ∧
    exHeapsUsed.heaps.get? 0 = some { size := 100, used := 50 } ∧
    exHeapsUsed.allocate_from okDevice 0 .data 60 0 =
      some (.error .HeapsExhausted, exHeapsUsed) :=
  ⟨by decide, by decide,
    allocate_from_budget_admission exHeapsUsed okDevice 0 .data 60 0 exTypeDed
      { size := 100, used := 50 } (by decide) (by decide) (by decide)⟩

/-- C9 (amended): `Heaps::free` panics (`none`) when the block's
`memory_index` is out of range; when it proceeds, it subtracts exactly the
freed byte count reported by the owning `MemoryType` from that type's heap's
`used`. -/
theorem heaps_free_behavior (h : Heaps) (dev : Device) (block : MemoryBlock) :
    (h.types.get? block.memory_index = none → h.free dev block = none) ∧
    (∀ h2, h.free dev block = some h2 →
      ∃ mt heap freed mt2,
        h.types.get? block.memory_index = some mt ∧
        h.heaps.get? mt.heap_index = some heap ∧
        mt.free dev block.block = some (freed, mt2) ∧
        freed ≤ heap.used ∧
        h2 = { types := h.types.set block.memory_index mt2,
               heaps := h.heaps.set mt.heap_index
                 { heap with used := heap.used - freed } }) := by
  constructor
  · intro hn; unfold Heaps.free; rw [hn]
  · intro h2 hr
    unfold Heaps.free at hr
    split at hr
    · exact absurd hr (by simp)
    · rename_i mt hget
      split at hr
      · exact absurd hr (by simp)
      · rename_i heap hheap
        split at hr
        · exact absurd hr (by simp)
        · rename_i freed mt2 hfree
          split at hr
          · exact absurd hr (by simp)
          · rename_i hle
            simp only [Option.some_inj] at hr
            exact ⟨mt, heap, freed, mt2, hget, hheap, hfree,
              Nat.not_lt.mp hle, hr.symm⟩

/-- C9 witness: freeing a 4-byte dedicated block on a heap with 50 bytes used
subtracts exactly 4. -/
theorem heaps_free_behavior_witness :
    exHeapsUsed.free okDevice { block := .dedicated { size := 4 }, memory_index := 0 } =
      some { types := [exTypeDed], heaps := [{ size := 100, used := 46 }] } ∧
    (∃ mt heap freed mt2,
      exHeapsUsed.types.get? 0 = some mt ∧
      exHeapsUsed.heaps.get? mt.heap_index = some heap ∧
      mt.free okDevice (.dedicated { size := 4 }) = some (freed, mt2) ∧
      freed ≤ heap.used ∧
      ({ types := [exTypeDed], heaps := [{ size := 100, used := 46 }] } : Heaps)
        = { types := exHeapsUsed.types.set 0 mt2,
            heaps := exHeapsUsed.heaps.set mt.heap_index
              { heap with used := heap.used - freed } }) :=
  ⟨by decide,
    (heaps_free_behavior exHeapsUsed okDevice
      { block := .dedicated { size := 4 }, memory_index := 0 }).2
      { types := [exTypeDed], heaps := [{ size := 100, used := 46 }] } (by decide)⟩

/-- C9 counterexample: a block that did not originate from this `Heaps`
instance (it is the block another, distinct `Heaps` instance returned) is
freed without any panic: the vacuous debug assertion detects nothing and the
freed bytes are simply subtracted. -/
theorem heaps_free_foreign_block_counterexample :
    exHeapsDed.allocate okDevice 1 .data 4 1 =
      some (.ok { block := .dedicated { size := 4 }, memory_index := 0 },
        { types := [exTypeDed], heaps := [{ size := 500, used := 4 }] }) ∧
    exHeapsUsed ≠ exHeapsDed ∧
    exHeapsUsed.free okDevice { block := .dedicated { size := 4 }, memory_index := 0 } =
      some { types := [exTypeDed], heaps := [{ size := 100, used := 46 }] } := by
  refine ⟨by decide, by decide, by decide⟩

/-- C4: whenever `Heaps::allocate` returns an error (any member of the
taxonomy), the heap accounting is exactly as it was before the call; in
particular a failed sub-allocator attempt adds nothing to any heap's
`used`. -/
theorem heaps_allocate_error_preserves_accounting (h : Heaps) (dev : Device) (mask : Nat)
    (usage : MemoryUsageValue) (size align : Nat) (e : MemoryError) (h2 : Heaps)
    (hr : h.allocate dev mask usage size align = some (.error e, h2)) :
    h2.heaps = h.heaps :=
  allocate_error_heaps_unchanged hr

/-- C4 witness: a device refusing every raw allocation makes `allocate` fail
with `OutOfDeviceMemory` while the heap accounting stays identical. -/
theorem heaps_allocate_error_preserves_accounting_witness :
    exHeapsDyn.allocate failDevice 1 .dynamic 1 1 =
      some (.error .OutOfDeviceMemory, exHeapsDyn) ∧
    exHeapsDyn.heaps = exHeapsDyn.heaps :=
  ⟨by decide,
    heaps_allocate_error_preserves_accounting exHeapsDyn failDevice 1 .dynamic 1 1
      .OutOfDeviceMemory exHeapsDyn (by decide)⟩

/-- The dynamic allocator of `exTypeDyn` after its first chunk creation. -/
def exDynAfter : DynamicAllocator :=
  { memoryType := 0, properties := HOST_VISIBLE,
    config := { blocksPerChunk := 64, minBlock := 1, maxBlock := 4 },
    classes := [(1, [some 1])] }

/-- The memory type of `exHeapsDyn` after its first dynamic allocation. -/
def exTypeDynAfter : MemoryType :=
  { heap_index := 0, properties := HOST_VISIBLE,
    dedicated := { memoryType := 0, properties := HOST_VISIBLE },
    arena := none, dynamic := some exDynAfter }

/-- The state `exHeapsDyn` reaches after one 1-byte Dynamic allocation: the
dynamic sub-allocator created a whole 64-byte chunk, so `used` jumped to 64
on the 8-byte heap. -/
def exHeapsDynAfter : Heaps :=
  { types := [exTypeDynAfter], heaps := [{ size := 8, used := 64 }] }

/-- C1 counterexample: starting from a state satisfying `used ≤ size`, a
single successful `Heaps::allocate` whose sub-allocator consumed a full chunk
(64 bytes, beyond both the requested size and the heap's 8 remaining bytes)
leaves `used = 64 > 8 = size`: the budget invariant is not maintained by the
code when the reported `allocated` exceeds the heap's available bytes. -/
theorem heaps_budget_violation_counterexample :
    exHeapsDyn.HeapInv ∧
    exHeapsDyn.allocate okDevice 1 .dynamic 1 1 =
      some (.ok ⟨.dynamic ⟨1, 0, 0⟩, 0⟩, exHeapsDynAfter) ∧
    ¬ exHeapsDynAfter.HeapInv :=
  ⟨by decide, by decide, by decide⟩

/-- C1 (amended): `heap.used ≤ heap.size` is preserved by `Heaps::allocate`
provided every successful sub-allocation reports an `allocated` byte count of
at most the owning heap's available bytes (the admission check compares
`available` only against `size`, so this extra hypothesis is exactly what the
chunk-granularity counterexample forces). -/
theorem heaps_allocate_preserves_budget (h : Heaps) (dev : Device) (mask : Nat)
    (usage : MemoryUsageValue) (size align : Nat)
    (hinv : h.HeapInv)
    (halloc : ∀ i mt ba mt2, h.types.get? i = some mt →
      mt.alloc dev usage size align = (.ok ba, mt2) →
      ba.2 ≤ (h.heaps.getD mt.heap_index { size := 0, used := 0 }).available) :
    ∀ r h2, h.allocate dev mask usage size align = some (r, h2) → h2.HeapInv := by
  intro r h2 hr
  cases r with
  | error e =>
    rw [Heaps.HeapInv, allocate_error_heaps_unchanged hr]
    exact hinv
  | ok blk =>
    obtain ⟨sel, hmax, hidx, hfrom⟩ := allocate_ok_from hr
    obtain ⟨mt, heap, b, a, mt2, hget, hheap, havail, hallocEq, hblk, hh2⟩ :=
      allocate_from_eq_ok hfrom
    have hgetD : h.heaps.getD mt.heap_index { size := 0, used := 0 } = heap := by
      rw [List.getD_eq_getElem?_getD, ← List.get?_eq_getElem?, hheap]
      rfl
    have hbound : a ≤ heap.size - heap.used := by
      have := halloc sel.1 mt (b, a) mt2 hget hallocEq
      rw [hgetD] at this
      exact this
    have hused : heap.used ≤ heap.size := hinv heap (List.get?_mem hheap)
    intro x hx
    rw [hh2] at hx
    simp only at hx
    rcases List.mem_or_eq_of_mem_set hx with hmem | rfl
    · exact hinv x hmem
    · simp only
      omega

/-- The state `exHeapsDed` reaches after one 4-byte Data allocation through
the dedicated allocator. -/
def exHeapsDedAfter : Heaps :=
  { types := [exTypeDed], heaps := [{ size := 500, used := 4 }] }

/-- C1 witness: a dedicated 4-byte allocation on a 500-byte heap (where the
reported `allocated` is within the available budget) preserves the
invariant. -/
theorem heaps_allocate_preserves_budget_witness :
    exHeapsDed.HeapInv ∧
    exHeapsDed.allocate okDevice 1 .data 4 1 =
      some (.ok { block := .dedicated { size := 4 }, memory_index := 0 }, exHeapsDedAfter) ∧
    exHeapsDedAfter.HeapInv := by
  refine ⟨by decide, by decide, ?_⟩
  refine heaps_allocate_preserves_budget exHeapsDed okDevice 1 .data 4 1 (by decide)
    ?_ (.ok { block := .dedicated { size := 4 }, memory_index := 0 }) exHeapsDedAfter
    (by decide)
  intro i mt ba mt2 hget hallocEq
  cases i with
  | zero =>
    have hmt : mt = exTypeDed := by
      simp only [exHeapsDed, List.get?] at hget
      exact (Option.some_inj.mp hget).symm
    subst hmt
    have hcomp : exTypeDed.alloc okDevice .data 4 1 =
        (.ok (.dedicated { size := 4 }, 4), exTypeDed) := by decide
    rw [hcomp] at hallocEq
    have hfst := congrArg Prod.fst hallocEq
    have hba : (BlockFlavor.dedicated { size := 4 }, 4) = ba :=
      (Except.ok.injEq _ _).mp hfst
    rw [← hba]
    decide
  | succ n =>
    simp only [exHeapsDed, List.get?] at hget
    exact absurd hget (by simp)

/-! ### The selection order: last maximal candidate -/

/-- The fold underlying Rust's `max_by_key` (which keeps the later element on
ties). -/
def foldMax (key : α → Nat) (x : α) (l : List α) : α :=
  l.foldl (fun best y => if key best ≤ key y then y else best) x

theorem foldMax_mem (key : α → Nat) :
    ∀ (l : List α) (x : α), foldMax key x l = x ∨ foldMax key x l ∈ l := by
  intro l
  induction l with
  | nil => intro x; left; rfl
  | cons y ys ih =>
    intro x
    have hred : foldMax key x (y :: ys) =
        foldMax key (if key x ≤ key y then y else x) ys := rfl
    rw [hred]
    by_cases hk : key x ≤ key y
    · rw [if_pos hk]
      rcases ih y with h | h
      · right; rw [h]; exact List.mem_cons_self _ _
      · right; exact List.mem_cons_of_mem _ h
    · rw [if_neg hk]
      rcases ih x with h | h
      · left; exact h
      · right; exact List.mem_cons_of_mem _ h

theorem maxByKeyLast_mem {key : α → Nat} {l : List α} {r : α}
    (hr : maxByKeyLast key l = some r) : r ∈ l := by
  cases l with
  | nil => exact absurd hr (by simp [maxByKeyLast])
  | cons x xs =>
    have hrr : r = foldMax key x xs := by
      simp only [maxByKeyLast] at hr
      exact (Option.some_inj.mp hr).symm
    subst hrr
    rcases foldMax_mem key xs x with h | h
    · rw [h]; exact List.mem_cons_self _ _
    · exact List.mem_cons_of_mem _ h

/-- Behaviour of the `max_by_key` fold on a list whose `idx` projections are
strictly increasing: the result is maximal for `key`, and among equal keys it
is the one with the largest `idx` (the last). -/
theorem foldMax_spec (key idx : α → Nat) :
    ∀ (l : List α) (x : α), (∀ y ∈ l, idx x < idx y) →
      l.Pairwise (fun a b => idx a < idx b) →
      (foldMax key x l = x ∨ foldMax key x l ∈ l) ∧
      key x ≤ key (foldMax key x l) ∧
      (∀ y ∈ l, key y ≤ key (foldMax key x l) ∧
        (key y = key (foldMax key x l) → idx y ≤ idx (foldMax key x l))) ∧
      (key x = key (foldMax key x l) → idx x ≤ idx (foldMax key x l)) := by
  intro l
  induction l with
  | nil =>
    intro x _ _
    exact ⟨Or.inl rfl, le_refl _, fun y hy => absurd hy (by simp), fun _ => le_refl _⟩
  | cons y ys ih =>
    intro x hlt hpair
    rw [List.pairwise_cons] at hpair
    obtain ⟨hy, hpair2⟩ := hpair
    have hred : foldMax key x (y :: ys) =
        foldMax key (if key x ≤ key y then y else x) ys := rfl
    by_cases hk : key x ≤ key y
    · rw [hred, if_pos hk]
      obtain ⟨h1, h2, h3, h4⟩ := ih y hy hpair2
      refine ⟨?_, le_trans hk h2, ?_, ?_⟩
      · rcases h1 with h1 | h1
        · right; rw [h1]; exact List.mem_cons_self _ _
        · right; exact List.mem_cons_of_mem _ h1
      · intro z hz
        rcases List.mem_cons.mp hz with rfl | hz2
        · exact ⟨h2, h4⟩
        · exact h3 z hz2
      · intro _
        rcases h1 with h1 | h1
        · rw [h1]; exact le_of_lt (hlt y (List.mem_cons_self _ _))
        · exact le_of_lt (hlt _ (List.mem_cons_of_mem _ h1))
    · rw [hred, if_neg hk]
      obtain ⟨h1, h2, h3, h4⟩ :=
        ih x (fun z hz => hlt z (List.mem_cons_of_mem _ hz)) hpair2
      have hyx : key y < key x := Nat.lt_of_not_le hk
      refine ⟨?_, h2, ?_, h4⟩
      · rcases h1 with h1 | h1
        · left; exact h1
        · right; exact List.mem_cons_of_mem _ h1
      · intro z hz
        rcases List.mem_cons.mp hz with rfl | hz2
        · constructor
          · exact le_trans (le_of_lt hyx) h2
          · intro heq
            have : key z < key (foldMax key x ys) := lt_of_lt_of_le hyx h2
            omega
        · exact h3 z hz2

/-- Rust's `max_by_key` picks a maximal element and, among equal keys, the
last one (largest `idx`, when `idx` is strictly increasing along the list). -/
theorem maxByKeyLast_spec (key idx : α → Nat) (l : List α)
    (hpair : l.Pairwise (fun a b => idx a < idx b)) (r : α)
    (hr : maxByKeyLast key l = some r) :
    r ∈ l ∧ ∀ y ∈ l, key y ≤ key r ∧ (key y = key r → idx y ≤ idx r) := by
  cases l with
  | nil => exact absurd hr (by simp [maxByKeyLast])
  | cons x xs =>
    rw [List.pairwise_cons] at hpair
    obtain ⟨hx, hpair2⟩ := hpair
    have hrr : r = foldMax key x xs := by
      simp only [maxByKeyLast] at hr
      exact (Option.some_inj.mp hr).symm
    subst hrr
    obtain ⟨h1, h2, h3, h4⟩ := foldMax_spec key idx xs x hx hpair2
    refine ⟨?_, ?_⟩
    · rcases h1 with h1 | h1
      · rw [h1]; exact List.mem_cons_self _ _
      · exact List.mem_cons_of_mem _ h1
    · intro y hy
      rcases List.mem_cons.mp hy with rfl | hy2
      · exact ⟨h2, h4⟩
      · exact h3 y hy2

/-! ### The candidate lists have strictly increasing type indices -/

theorem pairwise_fst_enumFrom (l : List α) (n : Nat) :
    (l.enumFrom n).Pairwise (fun a b => a.1 < b.1) := by
  induction l generalizing n with
  | nil => simp
  | cons x xs ih =>
    rw [List.enumFrom_cons, List.pairwise_cons]
    refine ⟨?_, ih (n + 1)⟩
    rintro ⟨i, y⟩ hb
    have := (List.mem_enumFrom hb).1
    simp only
    omega

theorem pairwise_fst_suitableTypes (h : Heaps) (mask : Nat) (usage : MemoryUsageValue) :
    (h.suitableTypes mask usage).Pairwise (fun a b => a.1 < b.1) := by
  unfold Heaps.suitableTypes
  rw [List.pairwise_filterMap]
  have henum : (h.types.enum).Pairwise (fun a b => a.1 < b.1) :=
    pairwise_fst_enumFrom h.types 0
  have hfil : (List.filter (fun p => mask &&& (1 <<< p.1) != 0) h.types.enum).Pairwise
      (fun a b => a.1 < b.1) :=
    henum.sublist (List.filter_sublist _)
  refine hfil.imp ?_
  intro a b hab x hx y hy
  simp only [Option.mem_def, Option.map_eq_some'] at hx hy
  obtain ⟨fa, _, rfl⟩ := hx
  obtain ⟨fb, _, rfl⟩ := hy
  exact hab

theorem pairwise_fst_budgetTypes (h : Heaps) (mask : Nat) (usage : MemoryUsageValue)
    (size align : Nat) :
    (h.budgetTypes mask usage size align).Pairwise (fun a b => a.1 < b.1) :=
  (pairwise_fst_suitableTypes h mask usage).sublist (List.filter_sublist _)

/-- The state `exHeapsTie` reaches after one 4-byte Data allocation. -/
def exHeapsTieAfter : Heaps :=
  { types := [exTypeDed, exTypeDedB], heaps := [{ size := 1000, used := 4 }] }

/-- C2 counterexample: with two candidates of equal fitness (indices 0 and 1,
both passing every filter), `Heaps::allocate` returns a block of memory type
1, not the lowest index 0: Rust's `max_by_key` keeps the LAST maximal
element, so ties break towards the highest index. -/
theorem heaps_allocate_tie_break_counterexample :
    exHeapsTie.allocate okDevice 3 .data 4 1 =
      some (.ok ⟨.dedicated ⟨4⟩, 1⟩, exHeapsTieAfter) ∧
    ((0 : Nat), exTypeDed, 4) ∈ exHeapsTie.budgetTypes 3 .data 4 1 ∧
    ((1 : Nat), exTypeDedB, 4) ∈ exHeapsTie.budgetTypes 3 .data 4 1 ∧
    (1 : Nat) ≠ 0 :=
  ⟨by decide, by decide, by decide, by decide⟩

/-- C2 (amended): among the candidates passing the mask, fitness and heap
budget filters, `Heaps::allocate` picks one with the highest fitness; when
several have equal fitness, the one with the HIGHEST memory-type index is
chosen (Rust's `max_by_key` returns the last maximal element); the selection
is still deterministic. -/
theorem heaps_allocate_selection (h : Heaps) (dev : Device) (mask : Nat)
    (usage : MemoryUsageValue) (size align : Nat) (blk : MemoryBlock) (h2 : Heaps)
    (hr : h.allocate dev mask usage size align = some (.ok blk, h2)) :
    ∃ mt f, (blk.memory_index, mt, f) ∈ h.budgetTypes mask usage size align ∧
      ∀ e ∈ h.budgetTypes mask usage size align,
        e.2.2 ≤ f ∧ (e.2.2 = f → e.1 ≤ blk.memory_index) := by
  obtain ⟨sel, hmax, hidx, hfrom⟩ := allocate_ok_from hr
  obtain ⟨hmem, hall⟩ := maxByKeyLast_spec (fun e => e.2.2) (fun e => e.1) _
    (pairwise_fst_budgetTypes h mask usage size align) sel hmax
  obtain ⟨i, mt, f⟩ := sel
  subst hidx
  exact ⟨mt, f, hmem, hall⟩

/-- C2 witness: on the two-way tie, the returned index 1 belongs to the
budget-filtered candidates and dominates every candidate's fitness, with
equal-fitness candidates having index at most 1. -/
theorem heaps_allocate_selection_witness :
    ∃ mt f, ((1 : Nat), mt, f) ∈ exHeapsTie.budgetTypes 3 .data 4 1 ∧
      ∀ e ∈ exHeapsTie.budgetTypes 3 .data 4 1,
        e.2.2 ≤ f ∧ (e.2.2 = f → e.1 ≤ 1) :=
  heaps_allocate_selection exHeapsTie okDevice 3 .data 4 1
    ⟨.dedicated ⟨4⟩, 1⟩ exHeapsTieAfter (by decide)

/-- C6: every `MemoryBlock` returned by `Heaps::allocate` has its memory
type's bit set in the request mask, and the usage's fitness for that memory
type's properties is not `None`. -/
theorem heaps_allocate_mask_fitness (h : Heaps) (dev : Device) (mask : Nat)
    (usage : MemoryUsageValue) (size align : Nat) (blk : MemoryBlock) (h2 : Heaps)
    (hr : h.allocate dev mask usage size align = some (.ok blk, h2)) :
    (mask &&& (1 <<< blk.memory_type) != 0) = true ∧
    ∃ mt f, h.types.get? blk.memory_type = some mt ∧
      memory_fitness usage mt.properties = some f := by
  obtain ⟨sel, hmax, hidx, hfrom⟩ := allocate_ok_from hr
  have hmem := maxByKeyLast_mem hmax
  have hsuit := (mem_budgetTypes.mp hmem).1
  obtain ⟨hget, hmask, hfit⟩ := mem_suitableTypes.mp hsuit
  rw [MemoryBlock.memory_type, hidx]
  exact ⟨hmask, sel.2.1, sel.2.2, hget, hfit⟩

/-- C6 witness: the block handed back for a Data request with mask 1 sits on
type 0, whose bit is set and whose fitness is `some 4`. -/
theorem heaps_allocate_mask_fitness_witness :
    ((1 : Nat) &&& (1 <<< MemoryBlock.memory_type ⟨.dedicated ⟨4⟩, 0⟩) != 0) = true ∧
    ∃ mt f, exHeapsDed.types.get? (MemoryBlock.memory_type ⟨.dedicated ⟨4⟩, 0⟩) = some mt ∧
      memory_fitness .data mt.properties = some f :=
  heaps_allocate_mask_fitness exHeapsDed okDevice 1 .data 4 1
    ⟨.dedicated ⟨4⟩, 0⟩ exHeapsDedAfter (by decide)

/-- The mask-and-fitness candidate list is empty exactly when no memory type
has both its mask bit set and a non-`None` fitness. -/
theorem suitableTypes_eq_nil_iff {h : Heaps} {mask : Nat} {usage : MemoryUsageValue} :
    h.suitableTypes mask usage = [] ↔
      ∀ i mt, h.types.get? i = some mt → (mask &&& (1 <<< i) != 0) = true →
        memory_fitness usage mt.properties = none := by
  constructor
  · intro hnil i mt hget hmask
    cases hfit : memory_fitness usage mt.properties with
    | none => rfl
    | some f =>
      have hmem : (i, mt, f) ∈ h.suitableTypes mask usage :=
        mem_suitableTypes.mpr ⟨hget, hmask, hfit⟩
      rw [hnil] at hmem
      exact absurd hmem (by simp)
  · intro hall
    cases hs : h.suitableTypes mask usage with
    | nil => rfl
    | cons e rest =>
      have hmem : e ∈ h.suitableTypes mask usage := by
        rw [hs]; exact List.mem_cons_self _ _
      obtain ⟨hget, hmask, hfit⟩ := mem_suitableTypes.mp hmem
      rw [hall e.1 e.2.1 hget hmask] at hfit
      exact absurd hfit (by simp)

/-- C3: `Heaps::allocate` returns `NoSuitableMemory(mask, usage)` exactly
when no memory type passes both the mask and the fitness filter; when
suitable types exist but every one of them has `available ≤ size + align`,
it returns `HeapsExhausted`; and every device-layer error it returns was
produced, unchanged, by the sub-allocator of one of the budget-passing
candidates. -/
theorem heaps_allocate_error_taxonomy (h : Heaps) (dev : Device) (mask : Nat)
    (usage : MemoryUsageValue) (size align : Nat) (hwf : h.WF) :
    (h.allocate dev mask usage size align =
        some (.error (.NoSuitableMemory mask usage), h) ↔
      ∀ i mt, h.types.get? i = some mt → (mask &&& (1 <<< i) != 0) = true →
        memory_fitness usage mt.properties = none) ∧
    (h.suitableTypes mask usage ≠ [] →
      (∀ e ∈ h.suitableTypes mask usage,
        (h.heaps.getD e.2.1.heap_index { size := 0, used := 0 }).available ≤ size + align) →
      h.allocate dev mask usage size align = some (.error .HeapsExhausted, h)) ∧
    (∀ e h2, h.allocate dev mask usage size align = some (.error e, h2) →
      e.isDeviceError →
      ∃ sel mt2, sel ∈ h.budgetTypes mask usage size align ∧
        sel.2.1.alloc dev usage size align = (.error e, mt2)) := by
  have hcond : ¬ ((h.suitableTypes mask usage).any
      (fun e => decide (h.heaps.length ≤ e.2.1.heap_index)) = true) := by
    rw [List.any_eq_true]
    rintro ⟨e, he, habs⟩
    have hget := (mem_suitableTypes.mp he).1
    have hmem := List.get?_mem hget
    have := hwf e.2.1 hmem
    simp only [decide_eq_true_eq] at habs
    omega
  refine ⟨⟨?_, ?_⟩, ?_, ?_⟩
  · intro hr
    rw [← suitableTypes_eq_nil_iff]
    by_contra hne
    unfold Heaps.allocate at hr
    rw [if_neg (by simpa [List.isEmpty_iff] using hne), if_neg hcond] at hr
    cases hmax : maxByKeyLast (fun e => e.2.2) (h.budgetTypes mask usage size align) with
    | none => rw [hmax] at hr; exact absurd hr (by simp)
    | some sel =>
      rw [hmax] at hr
      obtain ⟨mt, heap, hget, hheap, hcase⟩ := allocate_from_eq_error hr
      rcases hcase with ⟨_, habs, _⟩ | ⟨_, mt2, halloc, _⟩
      · exact absurd habs (by simp)
      · have := memory_type_alloc_error_isDevice halloc
        simp [MemoryError.isDeviceError] at this
  · intro hall
    have hempty : h.suitableTypes mask usage = [] := suitableTypes_eq_nil_iff.mpr hall
    unfold Heaps.allocate
    rw [if_pos (by simp [List.isEmpty_iff, hempty])]
  · intro hne hallb
    have hbempty : h.budgetTypes mask usage size align = [] := by
      rw [Heaps.budgetTypes, List.filter_eq_nil_iff]
      intro e he
      simp only [decide_eq_true_eq, not_lt]
      exact hallb e he
    unfold Heaps.allocate
    rw [if_neg (by simpa [List.isEmpty_iff] using hne), if_neg hcond, hbempty]
    simp [maxByKeyLast]
  · intro e h2 hr hdev
    unfold Heaps.allocate at hr
    by_cases hse : (h.suitableTypes mask usage).isEmpty
    · rw [if_pos hse] at hr
      simp only [Option.some_inj, Prod.mk.injEq, Except.error.injEq] at hr
      rw [← hr.1] at hdev
      simp [MemoryError.isDeviceError] at hdev
    · rw [if_neg hse, if_neg hcond] at hr
      cases hmax : maxByKeyLast (fun e => e.2.2) (h.budgetTypes mask usage size align) with
      | none =>
        rw [hmax] at hr
        simp only [Option.some_inj, Prod.mk.injEq, Except.error.injEq] at hr
        rw [← hr.1] at hdev
        simp [MemoryError.isDeviceError] at hdev
      | some sel =>
        rw [hmax] at hr
        obtain ⟨mt, heap, hget, hheap, hcase⟩ := allocate_from_eq_error hr
        rcases hcase with ⟨_, rfl, _⟩ | ⟨_, mt2, halloc, _⟩
        · simp [MemoryError.isDeviceError] at hdev
        · have hmem := maxByKeyLast_mem hmax
          have hsuit := (mem_budgetTypes.mp hmem).1
          have hget2 := (mem_suitableTypes.mp hsuit).1
          rw [hget] at hget2
          rw [Option.some_inj.mp hget2] at halloc
          exact ⟨sel, mt2, hmem, halloc⟩

/-- C3 witness: with mask 0 nothing passes the mask filter, and `allocate`
returns `NoSuitableMemory(0, Data)` with the state unchanged. -/
theorem heaps_allocate_error_taxonomy_witness :
    exHeapsDed.allocate okDevice 0 .data 4 1 =
      some (.error (.NoSuitableMemory 0 .data), exHeapsDed) ↔
    ∀ i mt, exHeapsDed.types.get? i = some mt →
      ((0 : Nat) &&& (1 <<< i) != 0) = true →
      memory_fitness .data mt.properties = none :=
  (heaps_allocate_error_taxonomy exHeapsDed okDevice 0 .data 4 1 (by decide)).1

end Rendy
